import Mathlib

/-
Verification of the CollectionUtils / DateUtils core of this repository
(source: src/value-utils.ts).  The JavaScript functions are shallowly
embedded as executable Lean definitions; machine integers are modelled as
Int/Nat (JavaScript numbers stay well inside the exact-integer range here),
moment timestamps as integer epoch milliseconds or explicit calendar
fields, and fallible paths as Option/Except.
-/

namespace CollectionUtils

/--
A collection argument as accepted by `_isEmpty` / `_hasValues`
(src/value-utils.ts, lines 111-125 and 186-217): a JS `null`/`undefined`
value, an immutable `List`, a JS array, or a string-keyed hash.
Emptiness only inspects `size`, `length`, or `Object.keys`, never the
elements, so sequences are modelled by their size and a hash by its list
of own enumerable keys.
-/
inductive JSColl where
  | null
  | ilist (size : Nat)
  | arr (length : Nat)
  | hash (keys : List String)
deriving DecidableEq

/--
The body of the loop of `_isEmpty` for one collection: null/undefined is
skipped (counts as empty), an immutable `List` is empty iff `size = 0`, an
array iff `length = 0`; any other value takes the hash branch, which calls
`_isEmpty(Object.keys(collectionHash))` - a one-element variadic call on an
array of keys, which reduces to the array-length check.
-/
def isEmptySingle : JSColl → Bool
  | .null => true
  | .ilist n => n == 0
  | .arr n => n == 0
  | .hash ks => ks.length == 0

/--
Embeds `_isEmpty(...collections)` (src/value-utils.ts lines 186-217): starts with
`isEmpty = true` and clears the flag whenever a collection is found
non-empty.  The rest-parameter array itself is never null, so the initial
`isNullOrUndefined(collections)` guard is the always-false branch and the
argument is modelled as the list of collections.
-/
def isEmpty (collections : List JSColl) : Bool :=
  collections.foldl (fun acc c => if isEmptySingle c then acc else false) true

/--
Embeds `_hasValues(...collections)` (src/value-utils.ts lines 111-125): starts with
`hasValues = false` and sets the flag whenever `_isEmpty(collection)` (a
one-argument variadic call) is false.
-/
def hasValues (collections : List JSColl) : Bool :=
  collections.foldl (fun acc c => if isEmpty [c] then acc else true) false

/--
Embeds `_differenceOf(collectionA, collectionB, comparator)` (src/value-utils.ts
lines 44-53): elements of A with no comparator-match in B, in A's order
(`listA.filterNot(elementA => listB.some(elementB => comparator(...)))`).
The comparator is an explicit argument; the JS-level default (strict
equality) and null-argument wrapping live in `differenceOfJS` below.
-/
def differenceOf {α : Type} (A B : List α) (cmp : α → α → Bool) : List α :=
  A.filter (fun elementA => !(B.any (fun elementB => cmp elementA elementB)))

/--
Embeds `_intersectionOf(collectionA, collectionB, comparator)` (src/value-utils.ts
lines 164-173): elements of A with at least one comparator-match in B, in
A's order (`listA.filter(elementA => listB.some(...))`).
-/
def intersectionOf {α : Type} (A B : List α) (cmp : α → α → Bool) : List α :=
  A.filter (fun elementA => B.any (fun elementB => cmp elementA elementB))

/--
Embeds `List(collection)` from immutable-js as used by `_differenceOf` and
`_intersectionOf`: a null/undefined argument yields the empty list.
-/
def jsList {α : Type} : Option (List α) → List α
  | none => []
  | some xs => xs

/--
JS-level `_differenceOf`, including the null-collection wrapping and the
default strict-equality comparator
(`if (isNullOrUndefined(comparator)) comparator = (a, b) => a === b`).
-/
def differenceOfJS {α : Type} [BEq α] (A B : Option (List α))
    (comparator : Option (α → α → Bool)) : List α :=
  differenceOf (jsList A) (jsList B)
    (comparator.getD (fun elementA elementB => elementA == elementB))

/-- JS-level `_intersectionOf`, as `differenceOfJS`. -/
def intersectionOfJS {α : Type} [BEq α] (A B : Option (List α))
    (comparator : Option (α → α → Bool)) : List α :=
  intersectionOf (jsList A) (jsList B)
    (comparator.getD (fun elementA elementB => elementA == elementB))

theorem isEmpty_foldl (collections : List JSColl) (acc : Bool) :
    collections.foldl (fun acc c => if isEmptySingle c then acc else false) acc
      = (acc && collections.all isEmptySingle) := by
  induction collections generalizing acc with
  | nil => rw [List.foldl_nil, List.all_nil, Bool.and_true]
  | cons c cs ih =>
    rw [List.foldl_cons, List.all_cons]
    by_cases h : isEmptySingle c = true
    · rw [if_pos h, ih, h, Bool.true_and]
    · simp only [Bool.not_eq_true] at h
      rw [if_neg (by rw [h]; exact Bool.false_ne_true), ih, h,
        Bool.false_and, Bool.and_false]

theorem hasValues_foldl (collections : List JSColl) (acc : Bool) :
    collections.foldl (fun acc c => if isEmpty [c] then acc else true) acc
      = (acc || collections.any (fun c => !isEmpty [c])) := by
  induction collections generalizing acc with
  | nil => rw [List.foldl_nil, List.any_nil, Bool.or_false]
  | cons c cs ih =>
    rw [List.foldl_cons, List.any_cons]
    by_cases h : isEmpty [c] = true
    · rw [if_pos h, ih, h, Bool.not_true, Bool.false_or]
    · simp only [Bool.not_eq_true] at h
      rw [if_neg (by rw [h]; exact Bool.false_ne_true), ih, h,
        Bool.not_false, Bool.true_or, Bool.or_true]

theorem isEmpty_eq_all (collections : List JSColl) :
    isEmpty collections = collections.all isEmptySingle := by
  have h := isEmpty_foldl collections true
  rw [Bool.true_and] at h
  exact h

theorem hasValues_eq_any (collections : List JSColl) :
    hasValues collections = collections.any (fun c => !isEmpty [c]) := by
  have h := hasValues_foldl collections false
  rw [Bool.false_or] at h
  exact h

theorem isEmpty_singleton (c : JSColl) : isEmpty [c] = isEmptySingle c := by
  by_cases h : isEmptySingle c = true
  · rw [isEmpty_eq_all, List.all_cons, List.all_nil, Bool.and_true]
  · rw [isEmpty_eq_all, List.all_cons, List.all_nil, Bool.and_true]

end CollectionUtils

/--
C3: For every argument list (any combination of sequences, string-keyed
mappings, and null/undefined values, including the empty argument list),
`isEmpty(...args)` returns the boolean negation of `hasValues(...args)`.
-/
theorem C3_isEmpty_eq_not_hasValues (args : List CollectionUtils.JSColl) :
    CollectionUtils.isEmpty args = !CollectionUtils.hasValues args := by
  rw [CollectionUtils.isEmpty_eq_all, CollectionUtils.hasValues_eq_any]
  simp only [CollectionUtils.isEmpty_singleton]
  rw [List.all_eq_not_any_not]

/--
C4: For all sequences A and B and any comparator, every element of A lands
in exactly one of `differenceOf(A, B, cmp)` and `intersectionOf(A, B, cmp)`;
the two lists together are a permutation of A (no duplicates beyond A's
own), and no element occurrence belongs to both.
-/
theorem C4_difference_intersection_partition {α : Type} (A B : List α)
    (cmp : α → α → Bool) :
    List.Perm (CollectionUtils.differenceOf A B cmp ++ CollectionUtils.intersectionOf A B cmp) A ∧
    (∀ a ∈ A, (a ∈ CollectionUtils.differenceOf A B cmp ∧ a ∉ CollectionUtils.intersectionOf A B cmp)
        ∨ (a ∈ CollectionUtils.intersectionOf A B cmp ∧ a ∉ CollectionUtils.differenceOf A B cmp)) ∧
    (∀ x, x ∈ CollectionUtils.differenceOf A B cmp → x ∉ CollectionUtils.intersectionOf A B cmp) := by
  refine ⟨?_, ?_, ?_⟩
  · have hperm := List.filter_append_perm (fun a => !(B.any (fun b => cmp a b))) A
    have hcongr : A.filter (fun a => !!(B.any (fun b => cmp a b)))
        = A.filter (fun a => B.any (fun b => cmp a b)) := by
      apply List.filter_congr
      intro a _
      simp
    unfold CollectionUtils.differenceOf CollectionUtils.intersectionOf
    rw [← hcongr]
    exact hperm
  · intro a ha
    by_cases h : B.any (fun b => cmp a b) = true
    · right
      constructor
      · exact List.mem_filter.mpr ⟨ha, h⟩
      · intro hmem
        have := (List.mem_filter.mp hmem).2
        simp [h] at this
    · left
      constructor
      · exact List.mem_filter.mpr (by simp [ha, h])
      · intro hmem
        have := (List.mem_filter.mp hmem).2
        simp [h] at this
  · intro x hdiff hinter
    have h1 := (List.mem_filter.mp hdiff).2
    have h2 := (List.mem_filter.mp hinter).2
    simp [h2] at h1

/--
Witness for C4 at concrete input: A = [1, 2, 3], B = [2, 4] with the
default strict-equality comparator.
-/
theorem C4_witness :
    List.Perm (CollectionUtils.differenceOf [1, 2, 3] [2, 4] (fun a b : Nat => a == b) ++
      CollectionUtils.intersectionOf [1, 2, 3] [2, 4] (fun a b : Nat => a == b)) [1, 2, 3] ∧
    (2 : Nat) ∈ CollectionUtils.intersectionOf [1, 2, 3] [2, 4] (fun a b : Nat => a == b) ∧
    (2 : Nat) ∉ CollectionUtils.differenceOf [1, 2, 3] [2, 4] (fun a b : Nat => a == b) := by
  have h := C4_difference_intersection_partition [1, 2, 3] [2, 4] (fun a b : Nat => a == b)
  refine ⟨h.1, ?_, ?_⟩
  · rcases h.2.1 2 (by decide) with ⟨hd, _⟩ | ⟨hi, _⟩
    · exact absurd hd (by decide)
    · exact hi
  · rcases h.2.1 2 (by decide) with ⟨hd, _⟩ | ⟨_, hnd⟩
    · exact absurd hd (by decide)
    · exact hnd

namespace CollectionUtils

/--
A value stored in an enum-like JS object as consumed by `_getDefaultMap`
(src/value-utils.ts lines 84-98): either a number (an enumerant value) or a
string (an enumerant name, as produced by the TS reverse lookup).
-/
inductive EnumCell where
  | num (n : Int)
  | str (s : String)
deriving DecidableEq

/--
A JS whitespace or line-terminator character, the class trimmed by the
`Number(string)` coercion (ECMAScript WhiteSpace and LineTerminator).
-/
def isJsWhitespace (c : Char) : Bool :=
  c.toNat == 9 || c.toNat == 10 || c.toNat == 11 || c.toNat == 12 || c.toNat == 13 ||
  c.toNat == 32 || c.toNat == 160 || c.toNat == 5760 ||
  (8192 ≤ c.toNat && c.toNat ≤ 8202) ||
  c.toNat == 8232 || c.toNat == 8233 || c.toNat == 8239 || c.toNat == 8287 ||
  c.toNat == 12288 || c.toNat == 65279

/-- A decimal digit character. -/
def isDigitChar (c : Char) : Bool := 48 ≤ c.toNat && c.toNat ≤ 57

/-- A hexadecimal digit character. -/
def isHexDigitChar (c : Char) : Bool :=
  isDigitChar c || (97 ≤ c.toNat && c.toNat ≤ 102) || (65 ≤ c.toNat && c.toNat ≤ 70)

/-- An octal digit character. -/
def isOctDigitChar (c : Char) : Bool := 48 ≤ c.toNat && c.toNat ≤ 55

/-- A binary digit character. -/
def isBinDigitChar (c : Char) : Bool := c.toNat == 48 || c.toNat == 49

/--
The optional exponent tail of a decimal literal: empty, or `e`/`E`
followed by an optional sign and at least one digit.
-/
def isExponentTail : List Char → Bool
  | [] => true
  | c :: rest =>
    if c == 'e' || c == 'E' then
      match rest with
      | [] => false
      | s :: r =>
        if s == '+' || s == '-' then !r.isEmpty && r.all isDigitChar
        else (s :: r).all isDigitChar
    else false

/--
An unsigned decimal literal of the `Number(string)` grammar: digits,
digits `.` optional digits, or `.` digits, each with an optional exponent
tail.
-/
def isUnsignedDecimal (cs : List Char) : Bool :=
  let intPart := cs.takeWhile isDigitChar
  let rest := cs.drop intPart.length
  if intPart.isEmpty then
    match rest with
    | '.' :: rest2 =>
      let frac := rest2.takeWhile isDigitChar
      !frac.isEmpty && isExponentTail (rest2.drop frac.length)
    | _ => false
  else
    match rest with
    | '.' :: rest2 =>
      let frac := rest2.takeWhile isDigitChar
      isExponentTail (rest2.drop frac.length)
    | _ => isExponentTail rest

/-- An optionally signed decimal literal, or (signed) `Infinity`. -/
def isSignedDecimalOrInfinity (cs : List Char) : Bool :=
  let body :=
    match cs with
    | c :: rest => if c == '+' || c == '-' then rest else cs
    | [] => cs
  body == "Infinity".toList || isUnsignedDecimal body

/--
The ECMAScript StringNumericLiteral grammar after trimming: empty (which
coerces to 0), an unsigned `0x`/`0o`/`0b` integer literal, or an
optionally signed decimal literal or `Infinity`.
-/
def isStrNumericLiteral (cs : List Char) : Bool :=
  match cs with
  | [] => true
  | '0' :: x :: rest =>
    if x == 'x' || x == 'X' then !rest.isEmpty && rest.all isHexDigitChar
    else if x == 'o' || x == 'O' then !rest.isEmpty && rest.all isOctDigitChar
    else if x == 'b' || x == 'B' then !rest.isEmpty && rest.all isBinDigitChar
    else isSignedDecimalOrInfinity cs
  | _ => isSignedDecimalOrInfinity cs

/--
Whether `Number(s)` produces a number rather than NaN: the string is
trimmed of JS whitespace and matched against the StringNumericLiteral
grammar.  In particular signed strings such as "-5" (every `toString`
rendering of an integer), decimals, exponents and hex literals are
numeric, while ordinary identifier-like enumerant names are not.
-/
def isNumericString (s : String) : Bool :=
  isStrNumericLiteral
    (((s.toList.dropWhile isJsWhitespace).reverse.dropWhile isJsWhitespace).reverse)

/--
JS `isNaN(value)` as applied by `_getDefaultMap`: false on every number;
on a string, false exactly when `Number(string)` coerces it to a number
(`isNumericString`).
-/
def jsIsNaN : EnumCell → Bool
  | .num _ => false
  | .str s => !(isNumericString s)

/-- A cell coerced to a JS property key, as in the lookup `enumType[value]`. -/
def cellToKey : EnumCell → String
  | .num n => toString n
  | .str s => s

/-- Property lookup `enumType[key]` on the enum-like object. -/
def objLookup (enumType : List (String × EnumCell)) (key : String) : Option EnumCell :=
  (enumType.find? (fun e => e.1 == key)).map (fun e => e.2)

/--
Embeds `Map.set(key, value)` of the immutable-js Map built by `_getDefaultMap`,
modelled as an association list: replace the value if the key is present,
otherwise append a new entry.  The key is `Option EnumCell` because the JS
expression `enumType[enumType[key]]` can be `undefined`.
-/
def mapSet (m : List (Option EnumCell × Bool)) (key : Option EnumCell) (value : Bool) :
    List (Option EnumCell × Bool) :=
  if m.any (fun e => e.1 == key) then
    m.map (fun e => if e.1 == key then (e.1, value) else e)
  else m ++ [(key, value)]

/-- One `forEach` step of `_getDefaultMap` for the property `kv`. -/
def getDefaultMapStep (enumType : List (String × EnumCell)) (defaultValue : Bool)
    (m : List (Option EnumCell × Bool)) (kv : String × EnumCell) :
    List (Option EnumCell × Bool) :=
  if !(jsIsNaN kv.2) then
    mapSet m (some kv.2) defaultValue
  else
    mapSet m (objLookup enumType (cellToKey kv.2)) defaultValue

/--
Embeds `_getDefaultMap(enumType, defaultValue)` (src/value-utils.ts lines 84-98):
iterates `Object.keys(enumType)`; for each key whose value is numeric it
runs `defaultMap.set(enumType[key], defaultValue)`, otherwise
`defaultMap.set(enumType[value], defaultValue)`.  The object is modelled as
its entry list (`Object.keys` iteration order); since JS objects have
unique keys, `enumType[key]` is the entry's own value.
-/
def getDefaultMap (enumType : List (String × EnumCell)) (defaultValue : Bool) :
    List (Option EnumCell × Bool) :=
  enumType.foldl (getDefaultMapStep enumType defaultValue) []

/--
The entry list of a transpiled TS numeric enum: the forward name-to-number
entries, followed (when `withReverse` is set, as TS emits for numeric
enums) by the reverse number-to-name entries.  A JS object cannot hold
duplicate keys, so this list is a faithful object only when its keys are
pairwise distinct: names distinct, values (hence reverse keys) distinct
with distinct renderings, and no name equal to the rendering of a value -
exactly the conditions the C9 theorem assumes of an enum-like object.
-/
def enumObjOf (pairs : List (String × Int)) (withReverse : Bool) :
    List (String × EnumCell) :=
  pairs.map (fun p => (p.1, EnumCell.num p.2)) ++
    (if withReverse then pairs.map (fun p => (toString p.2, EnumCell.str p.1)) else [])

end CollectionUtils

namespace CollectionUtils

theorem mapSet_not_mem (m : List (Option EnumCell × Bool)) (k : Option EnumCell)
    (v : Bool) (h : m.any (fun e => e.1 == k) = false) :
    mapSet m k v = m ++ [(k, v)] := by
  rw [mapSet, if_neg (by rw [h]; exact Bool.false_ne_true)]

theorem mapSet_mem_const (m : List (Option EnumCell × Bool)) (k : Option EnumCell)
    (v : Bool) (hmem : m.any (fun e => e.1 == k) = true)
    (hconst : ∀ e ∈ m, e.2 = v) :
    mapSet m k v = m := by
  rw [mapSet, if_pos hmem]
  have hid : ∀ e ∈ m, (if e.1 == k then (e.1, v) else e) = e := by
    intro e he
    by_cases hk : (e.1 == k) = true
    · rw [if_pos hk]
      have h2 := hconst e he
      rw [Prod.ext_iff]
      exact ⟨rfl, h2.symm⟩
    · rw [if_neg hk]
  calc m.map (fun e => if e.1 == k then (e.1, v) else e) = m.map id := by
        apply List.map_congr_left
        intro e he
        rw [hid e he, id]
    _ = m := List.map_id m

theorem gdm_fold_forward (o : List (String × EnumCell)) (dv : Bool)
    (ps : List (String × Int)) (m : List (Option EnumCell × Bool))
    (hfresh : ∀ p ∈ ps, m.any (fun e => e.1 == some (EnumCell.num p.2)) = false)
    (hv : (ps.map Prod.snd).Nodup) :
    List.foldl (getDefaultMapStep o dv) m (ps.map (fun p => (p.1, EnumCell.num p.2)))
      = m ++ ps.map (fun p => (some (EnumCell.num p.2), dv)) := by
  induction ps generalizing m with
  | nil => simp
  | cons p ps ih =>
    rw [List.map_cons, List.foldl_cons, List.map_cons]
    have hstep : getDefaultMapStep o dv m (p.1, EnumCell.num p.2)
        = m ++ [(some (EnumCell.num p.2), dv)] := by
      rw [getDefaultMapStep]
      simp only [jsIsNaN, Bool.not_false, if_pos]
      exact mapSet_not_mem m _ dv (hfresh p (List.mem_cons_self p ps))
    rw [hstep]
    rw [List.map_cons] at hv
    have hv' := (List.nodup_cons.mp hv).2
    have hpv := (List.nodup_cons.mp hv).1
    have hfresh' : ∀ q ∈ ps,
        (m ++ [(some (EnumCell.num p.2), dv)]).any
          (fun e => e.1 == some (EnumCell.num q.2)) = false := by
      intro q hq
      rw [List.any_append]
      have h1 := hfresh q (List.mem_cons_of_mem p hq)
      have h2 : (some (EnumCell.num p.2) == some (EnumCell.num q.2)) = false := by
        rw [beq_eq_false_iff_ne]
        intro hcontra
        apply hpv
        have : p.2 = q.2 := by
          injection hcontra with h3
          injection h3
        rw [this]
        exact List.mem_map_of_mem Prod.snd hq
      simp [h1, h2]
    rw [ih _ hfresh' hv', List.append_assoc]
    rfl

theorem find?_forward_part (q : String × Int) (ps : List (String × Int))
    (l₂ : List (String × EnumCell)) (hn : (ps.map Prod.fst).Nodup) (hq : q ∈ ps) :
    (ps.map (fun p => (p.1, EnumCell.num p.2)) ++ l₂).find? (fun e => e.1 == q.1)
      = some (q.1, EnumCell.num q.2) := by
  induction ps with
  | nil => cases hq
  | cons p ps ih =>
    rw [List.map_cons, List.cons_append, List.find?_cons]
    rcases List.mem_cons.mp hq with hq1 | hq2
    · rw [hq1]
      simp
    · have hne : (p.1 == q.1) = false := by
        rw [beq_eq_false_iff_ne]
        intro hcontra
        rw [List.map_cons] at hn
        apply (List.nodup_cons.mp hn).1
        rw [hcontra]
        exact List.mem_map_of_mem Prod.fst hq2
      rw [hne]
      exact ih (by rw [List.map_cons] at hn; exact (List.nodup_cons.mp hn).2) hq2

theorem objLookup_enumObjOf (pairs : List (String × Int)) (wr : Bool)
    (hn : (pairs.map Prod.fst).Nodup) (q : String × Int) (hq : q ∈ pairs) :
    objLookup (enumObjOf pairs wr) q.1 = some (EnumCell.num q.2) := by
  rw [objLookup, enumObjOf, find?_forward_part q pairs _ hn hq]
  rfl

theorem gdm_fold_reverse (o : List (String × EnumCell)) (dv : Bool)
    (pairs qs : List (String × Int))
    (hsub : ∀ q ∈ qs, q ∈ pairs)
    (hnames : ∀ q ∈ qs, jsIsNaN (EnumCell.str q.1) = true)
    (hlookup : ∀ q ∈ qs, objLookup o q.1 = some (EnumCell.num q.2)) :
    List.foldl (getDefaultMapStep o dv)
        (pairs.map (fun p => (some (EnumCell.num p.2), dv)))
        (qs.map (fun p => (toString p.2, EnumCell.str p.1)))
      = pairs.map (fun p => (some (EnumCell.num p.2), dv)) := by
  induction qs with
  | nil => simp
  | cons q qs ih =>
    rw [List.map_cons, List.foldl_cons]
    have hstep : getDefaultMapStep o dv
        (pairs.map (fun p => (some (EnumCell.num p.2), dv))) (toString q.2, EnumCell.str q.1)
        = pairs.map (fun p => (some (EnumCell.num p.2), dv)) := by
      rw [getDefaultMapStep]
      rw [hnames q (List.mem_cons_self q qs)]
      simp only [Bool.not_true, Bool.false_eq_true, if_false]
      have hk : objLookup o (cellToKey (EnumCell.str q.1)) = some (EnumCell.num q.2) :=
        hlookup q (List.mem_cons_self q qs)
      rw [hk]
      apply mapSet_mem_const
      · rw [List.any_eq_true]
        refine ⟨(some (EnumCell.num q.2), dv), ?_, ?_⟩
        · exact List.mem_map_of_mem _ (hsub q (List.mem_cons_self q qs))
        · exact beq_self_eq_true _
      · intro e he
        rcases List.mem_map.mp he with ⟨p, _, hpe⟩
        rw [← hpe]
    rw [hstep]
    exact ih (fun r hr => hsub r (List.mem_cons_of_mem q hr))
      (fun r hr => hnames r (List.mem_cons_of_mem q hr))
      (fun r hr => hlookup r (List.mem_cons_of_mem q hr))

end CollectionUtils

/--
C9: For every enum-like object - distinct enumerant names that do not
coerce to numbers under JS `Number(string)` (so `isNaN` is true of them),
distinct numeric values with distinct string renderings, and no name
colliding with a value's rendering (conditions every ordinary enum
satisfies, and without which the entry list would not even be a valid JS
object), with or without the TS reverse-lookup numeric-string keys -
`getDefaultMap(enumLike, defaultValue)` returns a mapping whose key set is
exactly the set of enumerant values, each bound to `defaultValue`, with
exactly one entry per enumerant; in particular
`getDefaultMap({A:0, B:1}, true)` is the mapping `{0:true, 1:true}`.
-/
theorem C9_getDefaultMap (pairs : List (String × Int)) (wr dv : Bool)
    (hnames : ∀ p ∈ pairs, CollectionUtils.isNumericString p.1 = false)
    (hn : (pairs.map Prod.fst).Nodup) (hv : (pairs.map Prod.snd).Nodup)
    (_hrev : (pairs.map (fun p => toString p.2)).Nodup)
    (_hdisj : ∀ p ∈ pairs, ∀ q ∈ pairs, p.1 ≠ toString q.2) :
    CollectionUtils.getDefaultMap (CollectionUtils.enumObjOf pairs wr) dv
      = pairs.map (fun p => (some (CollectionUtils.EnumCell.num p.2), dv)) := by
  have hobj : CollectionUtils.enumObjOf pairs wr
      = pairs.map (fun p => (p.1, CollectionUtils.EnumCell.num p.2))
        ++ (if wr then pairs.map (fun p => (toString p.2, CollectionUtils.EnumCell.str p.1))
            else []) := rfl
  have hnames' : ∀ q ∈ pairs,
      CollectionUtils.jsIsNaN (CollectionUtils.EnumCell.str q.1) = true := by
    intro q hq
    rw [CollectionUtils.jsIsNaN, hnames q hq, Bool.not_false]
  rw [CollectionUtils.getDefaultMap, hobj]
  cases wr with
  | false =>
    rw [if_neg Bool.false_ne_true, List.append_nil]
    rw [CollectionUtils.gdm_fold_forward _ dv pairs [] (fun p _ => rfl) hv,
      List.nil_append]
  | true =>
    rw [if_pos rfl, List.foldl_append]
    rw [CollectionUtils.gdm_fold_forward _ dv pairs [] (fun p _ => rfl) hv,
      List.nil_append]
    exact CollectionUtils.gdm_fold_reverse _ dv pairs pairs (fun q hq => hq) hnames'
      (fun q hq => CollectionUtils.objLookup_enumObjOf pairs true hn q hq)

/--
Witness for C9: the spec's example `getDefaultMap({A:0, B:1}, true)`,
both as a plain object and with the transpiled reverse-lookup entries,
yields exactly `{0:true, 1:true}`.
-/
theorem C9_witness :
    CollectionUtils.getDefaultMap (CollectionUtils.enumObjOf [("A", 0), ("B", 1)] false) true
      = [(some (CollectionUtils.EnumCell.num 0), true),
         (some (CollectionUtils.EnumCell.num 1), true)] ∧
    CollectionUtils.getDefaultMap (CollectionUtils.enumObjOf [("A", 0), ("B", 1)] true) true
      = [(some (CollectionUtils.EnumCell.num 0), true),
         (some (CollectionUtils.EnumCell.num 1), true)] := by
  constructor
  · exact C9_getDefaultMap [("A", 0), ("B", 1)] false true (by decide) (by decide) (by decide)
      (by decide) (by decide)
  · exact C9_getDefaultMap [("A", 0), ("B", 1)] true true (by decide) (by decide) (by decide)
      (by decide) (by decide)

namespace CollectionUtils

/--
A JS value as consumed by `_isEqual` (src/value-utils.ts lines 296-327):
null/undefined (merged, both compare loosely equal to `null`), a number, a
string, a boolean, a function (carried as its source text, which is what
`toString()` yields), an array, or a plain object with its own enumerable
string-keyed fields.
-/
inductive JSVal where
  | vnull
  | vnum (n : Int)
  | vstr (s : String)
  | vbool (b : Bool)
  | vfun (src : String)
  | varr (elems : List JSVal)
  | vobj (fields : List (String × JSVal))

/-- The `Object.keys`-style index/value pairs of an array, keys rendered in decimal. -/
def arrFields : Nat → List JSVal → List (String × JSVal)
  | _, [] => []
  | i, x :: xs => (toString i, x) :: arrFields (i + 1) xs

/--
The own enumerable string-keyed fields of a value, as enumerated by
`Object.keys` inside `_isEqual`: an array exposes its indices as string
keys, an object its fields; primitives expose none.
-/
def objFields : JSVal → List (String × JSVal)
  | .varr xs => arrFields 0 xs
  | .vobj fs => fs
  | _ => []

/--
JS `typeof`.  The model merges `null` and `undefined` into `vnull` and
reports `typeof null === "object"`; the only place the merge is visible to
`_isEqual` is its second guard, where both `typeof x !== "object"` (for
undefined) and `x == null` (for null) lead to the same `false` result.
-/
def jsTypeof : JSVal → String
  | .vnull => "object"
  | .vnum _ => "number"
  | .vstr _ => "string"
  | .vbool _ => "boolean"
  | .vfun _ => "function"
  | .varr _ => "object"
  | .vobj _ => "object"

/--
JS strict equality `===` on the modelled values: value equality on
primitives.  Two composite values (arrays, objects, functions) are taken to
be distinct references, the conservative assumption for a value-level
model; `_isEqual` then falls through to its structural comparison, which
yields `true` anyway whenever the two sides are structurally identical.
-/
def strictEq : JSVal → JSVal → Bool
  | .vnull, .vnull => true
  | .vnum a, .vnum b => a == b
  | .vstr a, .vstr b => a == b
  | .vbool a, .vbool b => a == b
  | _, _ => false

/-- JS loose equality to `null` (`x == null`): true exactly on null/undefined. -/
def looseEqNull : JSVal → Bool
  | .vnull => true
  | _ => false

mutual

/--
Embeds `Array.prototype.join(",")` / `toString()` rendering used when `_isEqual`
compares a function-typed field by text: nullish elements render as the
empty string, numbers and booleans in decimal form, functions as their
source, and a plain object as the standard `[object Object]` tag.
-/
def jsValToStr : JSVal → String
  | .vnull => ""
  | .vnum n => toString n
  | .vstr s => s
  | .vbool b => toString b
  | .vfun src => src
  | .varr xs => joinElems xs
  | .vobj _ => "[object Object]"

/-- Comma-joined rendering of array elements, as `Array.prototype.toString`. -/
def joinElems : List JSVal → String
  | [] => ""
  | [x] => jsValToStr x
  | x :: xs => jsValToStr x ++ "," ++ joinElems xs

end

/--
Embeds `x.toString()`: throws a TypeError (modelled as `Except.error`) on
null/undefined, and renders every other value as `jsValToStr`.
-/
def jsToString : JSVal → Except Unit String
  | .vnull => Except.error ()
  | v => Except.ok (jsValToStr v)

mutual

/-- The nesting depth of a value: a strict bound on `_isEqual`'s recursion depth. -/
def jsDepth : JSVal → Nat
  | .varr xs => jsDepthList xs + 1
  | .vobj fs => jsDepthFields fs + 1
  | _ => 1

/-- Depth of a list of values (at least 1, so the fuel below stays positive). -/
def jsDepthList : List JSVal → Nat
  | [] => 1
  | x :: xs => max (jsDepth x) (jsDepthList xs)

/-- Depth of a field list (at least 1). -/
def jsDepthFields : List (String × JSVal) → Nat
  | [] => 1
  | kv :: rest => max (jsDepth kv.2) (jsDepthFields rest)

end

mutual

/--
Embeds `_isEqual(objectA, objectB)` (src/value-utils.ts lines 296-327), with an
explicit fuel for the recursion (the nesting depth of `objectA` strictly
bounds the recursion depth, and the wrapper `isEqual` below passes
`jsDepth objectA + 1`, so the fuel never runs out): reference/primitive
equality first, then the non-object/null guard, then key-count equality,
then the per-key loop.
-/
def isEqualF : Nat → JSVal → JSVal → Except Unit Bool
  | 0, _, _ => Except.error ()
  | Nat.succ fuel, a, b =>
    if strictEq a b then Except.ok true
    else if jsTypeof a != "object" || jsTypeof b != "object"
        || looseEqNull a || looseEqNull b then Except.ok false
    else if (objFields a).length != (objFields b).length then Except.ok false
    else isEqualLoop fuel (objFields a) (objFields b)
termination_by fuel _ _ => (fuel, 0)

/--
The `for (const key of keysA)` loop of `_isEqual`: the key must occur in
`keysB` (`indexOf !== -1`); a function-typed field on either side is
compared by `toString()` text (throwing if the other side is nullish);
any other field is compared recursively.
-/
def isEqualLoop : Nat → List (String × JSVal) → List (String × JSVal) →
    Except Unit Bool
  | _, [], _ => Except.ok true
  | fuel, kv :: rest, fb =>
    if !(fb.map Prod.fst).contains kv.1 then Except.ok false
    else
      let vb := ((fb.find? (fun e => e.1 == kv.1)).map (fun e => e.2)).getD JSVal.vnull
      if jsTypeof kv.2 == "function" || jsTypeof vb == "function" then
        match jsToString kv.2, jsToString vb with
        | Except.ok sa, Except.ok sb =>
          if sa != sb then Except.ok false else isEqualLoop fuel rest fb
        | _, _ => Except.error ()
      else
        match isEqualF fuel kv.2 vb with
        | Except.ok true => isEqualLoop fuel rest fb
        | Except.ok false => Except.ok false
        | Except.error e => Except.error e
termination_by fuel l _ => (fuel, l.length + 1)

end

/-- Embeds `_isEqual` with the fuel instantiated so that it can never run out. -/
def isEqual (objectA objectB : JSVal) : Except Unit Bool :=
  isEqualF (jsDepth objectA + 1) objectA objectB

end CollectionUtils

namespace CollectionUtils

theorem jsDepth_pos (v : JSVal) : 1 ≤ jsDepth v := by
  cases v <;> simp [jsDepth]

theorem jsDepthList_pos (l : List JSVal) : 1 ≤ jsDepthList l := by
  cases l with
  | nil => simp [jsDepthList]
  | cons x xs =>
    have h := jsDepth_pos x
    simp only [jsDepthList]
    exact le_max_of_le_left h

theorem find?_key_of_nodup {β : Type} (fb : List (String × β)) (kv : String × β)
    (hnodup : (fb.map Prod.fst).Nodup) (hmem : kv ∈ fb) :
    fb.find? (fun e => e.1 == kv.1) = some kv := by
  induction fb with
  | nil => cases hmem
  | cons p ps ih =>
    rcases List.mem_cons.mp hmem with h1 | h2
    · rw [h1]
      simp [List.find?_cons]
    · have hne : (p.1 == kv.1) = false := by
        rw [beq_eq_false_iff_ne]
        intro hcontra
        rw [List.map_cons] at hnodup
        apply (List.nodup_cons.mp hnodup).1
        rw [hcontra]
        exact List.mem_map_of_mem Prod.fst h2
      rw [List.find?_cons]
      simp only [hne]
      exact ih (by rw [List.map_cons] at hnodup; exact (List.nodup_cons.mp hnodup).2) h2

theorem arrFields_num (xs : List Int) :
    ∀ i, ∀ kv ∈ arrFields i (xs.map JSVal.vnum), ∃ n, kv.2 = JSVal.vnum n := by
  induction xs with
  | nil =>
    intro i kv hkv
    rw [List.map_nil, arrFields] at hkv
    cases hkv
  | cons x xs ih =>
    intro i kv hkv
    rw [List.map_cons, arrFields] at hkv
    rcases List.mem_cons.mp hkv with h1 | h2
    · exact ⟨x, by rw [h1]⟩
    · exact ih (i + 1) kv h2

theorem isEqualLoop_num (fuel : Nat) (hf : 1 ≤ fuel)
    (l fb : List (String × JSVal))
    (hsub : ∀ kv ∈ l, kv ∈ fb)
    (hnodup : (fb.map Prod.fst).Nodup)
    (hnum : ∀ kv ∈ fb, ∃ n, kv.2 = JSVal.vnum n) :
    isEqualLoop fuel l fb = Except.ok true := by
  induction l with
  | nil => rw [isEqualLoop]
  | cons kv rest ih =>
    have hmem := hsub kv (List.mem_cons_self kv rest)
    have hkey : kv.1 ∈ fb.map Prod.fst := List.mem_map_of_mem Prod.fst hmem
    have hcont : ((fb.map Prod.fst).contains kv.1) = true := by
      exact List.elem_iff.mpr hkey
    obtain ⟨n, hn⟩ := hnum kv hmem
    obtain ⟨m, rfl⟩ : ∃ m, fuel = m + 1 := by
      cases fuel with
      | zero => exact absurd hf (by decide)
      | succ m => exact ⟨m, rfl⟩
    rw [isEqualLoop, hcont]
    simp only [Bool.not_true, Bool.false_eq_true, if_false]
    rw [find?_key_of_nodup fb kv hnodup hmem]
    simp only [Option.map_some', Option.getD_some]
    rw [hn]
    simp only [jsTypeof]
    have hnotfun : (("number" : String) == "function") = false := by decide
    simp only [hnotfun, Bool.or_self, Bool.false_eq_true, if_false]
    have hself : isEqualF (m + 1) (JSVal.vnum n) (JSVal.vnum n) = Except.ok true := by
      rw [isEqualF]
      simp [strictEq]
    rw [hself]
    exact ih (fun e he => hsub e (List.mem_cons_of_mem kv he))

theorem isEqualF_arr_obj (fuel : Nat) (l : List JSVal) (fs : List (String × JSVal))
    (hlen : (arrFields 0 l).length = fs.length) :
    isEqualF (fuel + 1) (JSVal.varr l) (JSVal.vobj fs)
      = isEqualLoop fuel (arrFields 0 l) fs := by
  rw [isEqualF]
  have h1 : strictEq (JSVal.varr l) (JSVal.vobj fs) = false := rfl
  have h2 : (("object" : String) != "object") = false := by decide
  rw [h1]
  simp only [Bool.false_eq_true, if_false, jsTypeof, h2, looseEqNull,
    Bool.or_self, Bool.false_or, objFields, hlen, bne_self_eq_false]

end CollectionUtils

/--
C10: `isEqual` compares values only by their enumerable string-keyed
structure, so an array of numbers and a plain object carrying the same
decimal index keys bound to the same numbers compare equal; in particular
`isEqual([1, 2], {"0": 1, "1": 2})` returns true.
-/
theorem C10_isEqual_array_object (xs : List Int)
    (hkeys : ((CollectionUtils.arrFields 0 (xs.map CollectionUtils.JSVal.vnum)).map
      Prod.fst).Nodup) :
    CollectionUtils.isEqual
        (CollectionUtils.JSVal.varr (xs.map CollectionUtils.JSVal.vnum))
        (CollectionUtils.JSVal.vobj
          (CollectionUtils.arrFields 0 (xs.map CollectionUtils.JSVal.vnum)))
      = Except.ok true := by
  rw [CollectionUtils.isEqual]
  have hd : CollectionUtils.jsDepth
      (CollectionUtils.JSVal.varr (xs.map CollectionUtils.JSVal.vnum))
      = CollectionUtils.jsDepthList (xs.map CollectionUtils.JSVal.vnum) + 1 := by
    rw [CollectionUtils.jsDepth]
  rw [hd]
  rw [CollectionUtils.isEqualF_arr_obj
    (CollectionUtils.jsDepthList (xs.map CollectionUtils.JSVal.vnum) + 1) _ _ rfl]
  exact CollectionUtils.isEqualLoop_num _ (Nat.le_add_left 1 _) _ _
    (fun kv hkv => hkv) hkeys
    (fun kv hkv => CollectionUtils.arrFields_num xs 0 kv hkv)

/--
Witness for C10 at the claim's concrete input:
`isEqual([1, 2], {"0": 1, "1": 2})` evaluates to true.
-/
theorem C10_witness :
    CollectionUtils.isEqual
        (CollectionUtils.JSVal.varr [CollectionUtils.JSVal.vnum 1, CollectionUtils.JSVal.vnum 2])
        (CollectionUtils.JSVal.vobj [("0", CollectionUtils.JSVal.vnum 1),
          ("1", CollectionUtils.JSVal.vnum 2)])
      = Except.ok true := by
  have h := C10_isEqual_array_object [1, 2] (by decide)
  exact h

namespace DateUtils

/-- The `moment` diff units used by this module (src/value-utils.ts lines 363-400). -/
inductive DiffUnit where
  | hours
  | minutes
  | days
deriving DecidableEq

/-- Milliseconds per diff unit, as in moment's `diff` switch (36e5, 6e4, 864e5). -/
def unitMs : DiffUnit → Int
  | .hours => 3600000
  | .minutes => 60000
  | .days => 86400000

/--
Embeds `_dateDiff(a, b, unitOfTime, precise=false)` (src/value-utils.ts lines
363-372): `Moment(a).diff(b, unit)`.  Timestamps are modelled as integer
epoch milliseconds in a fixed zone (so moment's `zoneDelta` is 0), and the
imprecise diff is moment's `absFloor` of the millisecond quotient, i.e.
truncation toward zero, which is `Int.tdiv`.
-/
def dateDiff (a b : Int) (unitOfTime : DiffUnit) : Int :=
  Int.tdiv (a - b) (unitMs unitOfTime)

/--
Embeds `_dateDiffNow(date, unitOfTime, precise=false)` (src/value-utils.ts lines
374-381): `_dateDiff(Date.now(), date, ...)`, with the ambient clock passed
explicitly.
-/
def dateDiffNow (now date : Int) (unitOfTime : DiffUnit) : Int :=
  dateDiff now date unitOfTime

/-- The `{value, unit}` return shape of `_dateDiffNowFriendly`. -/
structure DateDiffNowFriendlyReturn where
  value : Int
  unit : String
deriving DecidableEq

/--
Embeds `_dateDiffNowFriendly(date)` (src/value-utils.ts lines 383-400), verbatim:
`timeAgo` starts as the hour diff; if it is under 1 both unit and `timeAgo`
are reassigned to minutes; the subsequent `timeAgo > 24` test then reads
the possibly-reassigned value and switches to days; finally the unit is
pluralized whenever the value is not 1.
-/
def dateDiffNowFriendly (now date : Int) : DateDiffNowFriendlyReturn :=
  let unit := "hour"
  let timeAgo := dateDiffNow now date DiffUnit.hours
  let (unit, timeAgo) :=
    if timeAgo < 1 then ("minute", dateDiffNow now date DiffUnit.minutes)
    else (unit, timeAgo)
  let (unit, timeAgo) :=
    if timeAgo > 24 then ("day", dateDiffNow now date DiffUnit.days)
    else (unit, timeAgo)
  { unit := unit ++ (if timeAgo ≠ 1 then "s" else ""), value := timeAgo }

end DateUtils

/--
C1 (code bug): on a timestamp 30 minutes in the past the hour diff is 0,
so the unit switches to minutes with value 30; but the `> 24` test then
reads that minute value, switches the unit to days and recomputes, so
`dateDiffNowFriendly` returns `{value: 0, unit: "days"}` instead of the
claimed `{value: 30, unit: "minutes"}`.  This theorem evaluates the code
at the failing input (now = 1800000 ms, date = 0 ms, i.e. 30 minutes
apart).
-/
theorem C1_dateDiffNowFriendly_30min_bug :
    DateUtils.dateDiffNowFriendly 1800000 0
        = { value := 0, unit := "days" } ∧
    DateUtils.dateDiffNowFriendly 1800000 0
        ≠ { value := 30, unit := "minutes" } ∧
    DateUtils.dateDiffNow 1800000 0 DateUtils.DiffUnit.hours = 0 ∧
    DateUtils.dateDiffNow 1800000 0 DateUtils.DiffUnit.minutes = 30 := by
  refine ⟨by decide, by decide, by decide, by decide⟩

namespace DateUtils

/--
The calendar fields of a (valid) moment object: year, month (1-12, the
calendar month; moment's 0-11 getter/setter convention is isomorphic and
cancels in every field-to-field copy), day of month, and time of day.
An invalid moment is `none` at type `Option MomentFields`.
-/
structure MomentFields where
  year : Int
  month : Nat
  day : Nat
  hour : Nat
  minute : Nat
  second : Nat
deriving DecidableEq

/--
Days since 1970-01-01 of a calendar date (proleptic Gregorian, the
standard civil-from-days correspondence used by the date collaborator).
-/
def daysFromCivil (y0 : Int) (m d : Nat) : Int :=
  let y := if m ≤ 2 then y0 - 1 else y0
  let era := Int.fdiv y 400
  let yoe := (y - era * 400).toNat
  let mp := if m > 2 then m - 3 else m + 9
  let doy := (153 * mp + 2) / 5 + d - 1
  let doe := yoe * 365 + yoe / 4 - yoe / 100 + doy
  era * 146097 + (doe : Int) - 719468

/-- The calendar date of a day number since 1970-01-01 (year, month 1-12, day). -/
def civilFromDays (z0 : Int) : Int × Nat × Nat :=
  let z := z0 + 719468
  let era := Int.fdiv z 146097
  let doe := (z - era * 146097).toNat
  let yoe := (doe - doe / 1460 + doe / 36524 - doe / 146096) / 365
  let y : Int := (yoe : Int) + era * 400
  let doy := doe - (365 * yoe + yoe / 4 - yoe / 100)
  let mp := (5 * doy + 2) / 153
  let d := doy - (153 * mp + 2) / 5 + 1
  let m := if mp < 10 then mp + 3 else mp - 9
  (if m ≤ 2 then y + 1 else y, m, d)

/-- Gregorian leap-year test. -/
def isLeapYear (y : Int) : Bool := (y % 4 == 0 && y % 100 != 0) || y % 400 == 0

/-- Day count of a calendar month (month 1-12). -/
def daysInMonth (y : Int) (m : Nat) : Nat :=
  if m == 2 then (if isLeapYear y then 29 else 28)
  else if m == 4 || m == 6 || m == 9 || m == 11 then 30
  else 31

/-- Embeds `moment.add(n, "day")`: shift the calendar date by n days, keeping the time. -/
def addDays (m : MomentFields) (n : Int) : MomentFields :=
  let c := civilFromDays (daysFromCivil m.year m.month m.day + n)
  { m with year := c.1, month := c.2.1, day := c.2.2 }

/--
The result of `_formatDate`: `null` for a null/invalid timestamp, a literal
relative-date label, or a formatted rendering of the moment.  The final
`moment.format(formatString)` call (with the optional format and timezone
arguments and `_getDateFormatString`) is the date-library collaborator and
is represented by the `formatted` constructor carrying the moment it would
render.
-/
inductive FormatResult where
  | null
  | label (text : String)
  | formatted (m : MomentFields)
deriving DecidableEq

/--
Embeds `_formatDate(timestamp, format?, showRelativeDates, timezone?)`
(src/value-utils.ts lines 438-484).  The timestamp argument is
`Option (Option MomentFields)`: the outer `none` is a JS null/undefined
timestamp, `some none` an invalid moment (whose `.date()` is NaN); both hit
the `invalidDateTime` guard and return null.  When `showRelativeDates` is
set, the guard compares `Moment().date()`-style day-of-month numbers of
today, yesterday (`add(-1, "day")`), tomorrow (`add(1, "day")`) and the
given timestamp, in that source order, and short-circuits to a label.
-/
def formatDate (now : MomentFields) (timestamp : Option (Option MomentFields))
    (showRelativeDates : Bool) : FormatResult :=
  match timestamp with
  | none => FormatResult.null
  | some none => FormatResult.null
  | some (some ts) =>
    if showRelativeDates then
      let todaysDate := now.day
      let yesterdaysDate := (addDays now (-1)).day
      let tomorrowsDate := (addDays now 1).day
      let givenDate := ts.day
      if givenDate = yesterdaysDate then FormatResult.label "Yesterday"
      else if givenDate = todaysDate then FormatResult.label "Today"
      else if givenDate = tomorrowsDate then FormatResult.label "Tomorrow"
      else FormatResult.formatted ts
    else FormatResult.formatted ts

end DateUtils

/--
C2 (code bug): the relative-date branch compares only day-of-month numbers
(`Moment().date()`), not full calendar dates.  With "now" at 2024-03-15, a
timestamp at 2024-04-15 - a full month later, hence on none of the
yesterday/today/tomorrow calendar days (its day number differs from now's
by 31) - is nevertheless labelled "Today".
-/
theorem C2_formatDate_relative_day_of_month_bug :
    DateUtils.formatDate
        { year := 2024, month := 3, day := 15, hour := 12, minute := 0, second := 0 }
        (some (some { year := 2024, month := 4, day := 15, hour := 12, minute := 0, second := 0 }))
        true
      = DateUtils.FormatResult.label "Today" ∧
    DateUtils.daysFromCivil 2024 4 15 - DateUtils.daysFromCivil 2024 3 15 = 31 := by
  refine ⟨by decide, by decide⟩

namespace DateUtils

/--
Embeds moment's `set("month", m)`: moment's month setter first pins the
day of month to the target month's length
(`dayOfMonth = min(mom.date(), daysInMonth(mom.year(), value))`), then
sets the month.
-/
def setMonth (t : MomentFields) (m : Nat) : MomentFields :=
  { t with month := m, day := min t.day (daysInMonth t.year m) }

/--
Embeds moment's `set("date", d)`, which delegates to the native
`Date.prototype.setDate`: an out-of-range day of month bubbles forward
into the following month instead of being clamped.  A day value obtained
from a moment getter is between 1 and 31, so the overflow spills at most
one month ahead, which is what this models (December rolls the year).
-/
def setDate (t : MomentFields) (d : Nat) : MomentFields :=
  if d ≤ daysInMonth t.year t.month then { t with day := d }
  else if t.month = 12 then
    { t with year := t.year + 1, month := 1, day := d - daysInMonth t.year t.month }
  else { t with month := t.month + 1, day := d - daysInMonth t.year t.month }

/--
Embeds moment's `set("year", y)`, which delegates to the native
`Date.prototype.setFullYear`: the month and day of month are kept, and a
day that does not exist in the target year (February 29 set into a
non-leap year) bubbles forward into the following month.
-/
def setFullYear (t : MomentFields) (y : Int) : MomentFields :=
  if t.day ≤ daysInMonth y t.month then { t with year := y }
  else if t.month = 12 then
    { t with year := y + 1, month := 1, day := t.day - daysInMonth y t.month }
  else { t with year := y, month := t.month + 1, day := t.day - daysInMonth y t.month }

/--
Embeds `_copyDate(from, to)` (src/value-utils.ts lines 517-524).  Moment's `set`
mutates the receiver, so the operation is modelled with explicit state
passing: the result triple is (the returned moment, the final state of
`from`, the final state of `to`).  When both operands are valid, the
source runs `to.set("month", from.month())`, `to.set("date", from.date())`,
`to.set("year", from.year())` in that order - each setter with its
pin/bubble normalization - and the mutated `to` is returned; otherwise
`to` is returned untouched.
-/
def copyDate (fromM toM : Option MomentFields) :
    Option MomentFields × Option MomentFields × Option MomentFields :=
  match fromM, toM with
  | some f, some t =>
    let t2 : MomentFields := setFullYear (setDate (setMonth t f.month) f.day) f.year
    (some t2, some f, some t2)
  | f, t => (t, f, t)

/--
Embeds `_copyTime(from, to)` (src/value-utils.ts lines 526-533): as `copyDate`,
but running `set("hour")`, `set("minute")`, `set("second")`.  A valid
moment's hour/minute/second getters always yield in-range values
(0-23 / 0-59 / 0-59), for which the native time setters are plain field
updates with no cross-field interaction, so they are modelled as such
(out-of-range time bubbling is unreachable through `_copyTime`).
-/
def copyTime (fromM toM : Option MomentFields) :
    Option MomentFields × Option MomentFields × Option MomentFields :=
  match fromM, toM with
  | some f, some t =>
    let t2 : MomentFields := { t with hour := f.hour, minute := f.minute, second := f.second }
    (some t2, some f, some t2)
  | f, t => (t, f, t)

end DateUtils

namespace DateUtils

theorem daysInMonth_eq_of_ne_two (y y' : Int) (m : Nat) (hm : m ≠ 2) :
    daysInMonth y m = daysInMonth y' m := by
  unfold daysInMonth
  have h2 : (m == 2) = false := beq_eq_false_iff_ne.mpr hm
  rw [h2]
  rfl

theorem daysInMonth_two (y : Int) :
    daysInMonth y 2 = if isLeapYear y then 29 else 28 := rfl

theorem daysInMonth_two_eq_28 (y : Int) (h : isLeapYear y = false) :
    daysInMonth y 2 = 28 := by
  rw [daysInMonth_two, h]
  rfl

end DateUtils

/--
C7 counterexample: with two distinct valid operands, `copyDate` does not
leave `to`'s fields unchanged - the final state of `to` differs from its
initial state (its month/date/year are overwritten in place), refuting
"the fields of `to` are unchanged after the call".
-/
theorem C7_counterexample_copyDate_mutates :
    (DateUtils.copyDate
        (some { year := 2024, month := 5, day := 10, hour := 0, minute := 0, second := 0 })
        (some { year := 2023, month := 1, day := 31, hour := 12, minute := 30, second := 45 })).2.2
      ≠ some { year := 2023, month := 1, day := 31, hour := 12, minute := 30, second := 45 } := by
  decide

/--
C7 (amended): when both operands are valid (the hypothesis states that
`from`'s day of month exists in `from`'s own month, which every valid
moment satisfies), `copyDate(from, to)` / `copyTime(from, to)` mutate `to`
in place and return that mutated `to` (not a new value), leaving `from`
unmodified.  The returned moment keeps `to`'s time of day and carries
`from`'s calendar date exactly whenever `from`'s day of month fits in
`to`'s year's copy of `from`'s month; in the one remaining case
(February 29 copied into a non-leap year) the collaborator's setter
normalization bubbles the date into the following month, March 1 of
`from`'s year.  `copyTime` copies the time fields with no normalization.
-/
theorem C7_copyDate_copyTime_combine_by_mutation
    (f t : DateUtils.MomentFields)
    (hdv : f.day ≤ DateUtils.daysInMonth f.year f.month) :
    DateUtils.copyDate (some f) (some t)
      = (some (if f.day ≤ DateUtils.daysInMonth t.year f.month then
                 { t with year := f.year, month := f.month, day := f.day }
               else
                 { t with year := f.year, month := f.month + 1, day := f.day - DateUtils.daysInMonth t.year f.month }),
         some f,
         some (if f.day ≤ DateUtils.daysInMonth t.year f.month then
                 { t with year := f.year, month := f.month, day := f.day }
               else
                 { t with year := f.year, month := f.month + 1, day := f.day - DateUtils.daysInMonth t.year f.month })) ∧
    DateUtils.copyTime (some f) (some t)
      = (some { t with hour := f.hour, minute := f.minute, second := f.second },
         some f,
         some { t with hour := f.hour, minute := f.minute, second := f.second }) := by
  constructor
  · have key : DateUtils.setFullYear (DateUtils.setDate (DateUtils.setMonth t f.month) f.day) f.year
        = (if f.day ≤ DateUtils.daysInMonth t.year f.month then
             { t with year := f.year, month := f.month, day := f.day }
           else
             { t with year := f.year, month := f.month + 1, day := f.day - DateUtils.daysInMonth t.year f.month }) := by
      by_cases hfits : f.day ≤ DateUtils.daysInMonth t.year f.month
      · rw [if_pos hfits]
        have h2 : DateUtils.setDate (DateUtils.setMonth t f.month) f.day
            = { t with month := f.month, day := f.day } := by
          rw [DateUtils.setMonth, DateUtils.setDate]
          dsimp only
          rw [if_pos hfits]
        have h3 : DateUtils.setFullYear { t with month := f.month, day := f.day } f.year
            = { t with year := f.year, month := f.month, day := f.day } := by
          rw [DateUtils.setFullYear]
          dsimp only
          rw [if_pos hdv]
        rw [h2, h3]
      · rw [if_neg hfits]
        have hne2 : f.month = 2 := by
          by_contra hne
          rw [DateUtils.daysInMonth_eq_of_ne_two t.year f.year f.month hne] at hfits
          exact hfits hdv
        have hd29top : f.day ≤ 29 := by
          have h := hdv
          rw [hne2, DateUtils.daysInMonth_two] at h
          by_cases hl : DateUtils.isLeapYear f.year = true
          · rw [if_pos hl] at h
            exact h
          · rw [if_neg hl] at h
            omega
        have hnl : DateUtils.isLeapYear t.year = false := by
          cases hb : DateUtils.isLeapYear t.year
          · rfl
          · exfalso
            apply hfits
            rw [hne2, DateUtils.daysInMonth_two, if_pos hb]
            exact hd29top
        have hd29 : f.day = 29 := by
          rw [hne2, DateUtils.daysInMonth_two_eq_28 t.year hnl] at hfits
          omega
        rw [hne2, hd29, DateUtils.daysInMonth_two_eq_28 t.year hnl]
        have s1 : DateUtils.setDate (DateUtils.setMonth t 2) 29
            = { t with month := 3, day := 1 } := by
          rw [DateUtils.setMonth, DateUtils.setDate]
          dsimp only
          rw [DateUtils.daysInMonth_two_eq_28 t.year hnl]
          rw [if_neg (by omega), if_neg (by omega)]
        have s2 : DateUtils.setFullYear { t with month := 3, day := 1 } f.year
            = { t with year := f.year, month := 3, day := 1 } := by
          rw [DateUtils.setFullYear]
          dsimp only
          have h31 : DateUtils.daysInMonth f.year 3 = 31 := rfl
          rw [h31, if_pos (by omega)]
        rw [s1, s2]
    simp only [DateUtils.copyDate]
    rw [key]
  · rfl

/--
Witness for C7: a plain copy (2024-05-10 into 2023-01-31, giving
2024-05-10 with `to`'s time), the February-29 bubble (2024-02-29 into a
2023 date, giving 2024-03-01 with `to`'s time), and a time copy.
-/
theorem C7_witness :
    DateUtils.copyDate
        (some { year := 2024, month := 5, day := 10, hour := 0, minute := 0, second := 0 })
        (some { year := 2023, month := 1, day := 31, hour := 12, minute := 30, second := 45 })
      = (some { year := 2024, month := 5, day := 10, hour := 12, minute := 30, second := 45 },
         some { year := 2024, month := 5, day := 10, hour := 0, minute := 0, second := 0 },
         some { year := 2024, month := 5, day := 10, hour := 12, minute := 30, second := 45 }) ∧
    DateUtils.copyDate
        (some { year := 2024, month := 2, day := 29, hour := 8, minute := 0, second := 0 })
        (some { year := 2023, month := 6, day := 15, hour := 1, minute := 2, second := 3 })
      = (some { year := 2024, month := 3, day := 1, hour := 1, minute := 2, second := 3 },
         some { year := 2024, month := 2, day := 29, hour := 8, minute := 0, second := 0 },
         some { year := 2024, month := 3, day := 1, hour := 1, minute := 2, second := 3 }) ∧
    DateUtils.copyTime
        (some { year := 2024, month := 2, day := 29, hour := 8, minute := 0, second := 0 })
        (some { year := 2023, month := 6, day := 15, hour := 1, minute := 2, second := 3 })
      = (some { year := 2023, month := 6, day := 15, hour := 8, minute := 0, second := 0 },
         some { year := 2024, month := 2, day := 29, hour := 8, minute := 0, second := 0 },
         some { year := 2023, month := 6, day := 15, hour := 8, minute := 0, second := 0 }) := by
  refine ⟨?_, ?_, ?_⟩
  · exact (C7_copyDate_copyTime_combine_by_mutation
      { year := 2024, month := 5, day := 10, hour := 0, minute := 0, second := 0 }
      { year := 2023, month := 1, day := 31, hour := 12, minute := 30, second := 45 }
      (by decide)).1
  · exact (C7_copyDate_copyTime_combine_by_mutation
      { year := 2024, month := 2, day := 29, hour := 8, minute := 0, second := 0 }
      { year := 2023, month := 6, day := 15, hour := 1, minute := 2, second := 3 }
      (by decide)).1
  · exact (C7_copyDate_copyTime_combine_by_mutation
      { year := 2024, month := 2, day := 29, hour := 8, minute := 0, second := 0 }
      { year := 2023, month := 6, day := 15, hour := 1, minute := 2, second := 3 }
      (by decide)).2

/--
C8: if either operand of `copyDate`/`copyTime` is an invalid moment, the
function is a no-op: nothing is set, `from` is untouched, and `to` is
returned with every field unmodified.
-/
theorem C8_copyDate_copyTime_invalid_noop
    (fromM toM : Option DateUtils.MomentFields)
    (h : fromM = none ∨ toM = none) :
    DateUtils.copyDate fromM toM = (toM, fromM, toM) ∧
    DateUtils.copyTime fromM toM = (toM, fromM, toM) := by
  rcases h with h | h
  · subst h
    cases toM <;> exact ⟨rfl, rfl⟩
  · subst h
    cases fromM <;> exact ⟨rfl, rfl⟩

/--
Witness for C8: an invalid `from` with a concrete valid `to` is returned
unmodified by both operations.
-/
theorem C8_witness :
    DateUtils.copyDate none
        (some { year := 2024, month := 5, day := 10, hour := 1, minute := 2, second := 3 })
      = (some { year := 2024, month := 5, day := 10, hour := 1, minute := 2, second := 3 },
         none,
         some { year := 2024, month := 5, day := 10, hour := 1, minute := 2, second := 3 }) ∧
    DateUtils.copyTime none
        (some { year := 2024, month := 5, day := 10, hour := 1, minute := 2, second := 3 })
      = (some { year := 2024, month := 5, day := 10, hour := 1, minute := 2, second := 3 },
         none,
         some { year := 2024, month := 5, day := 10, hour := 1, minute := 2, second := 3 }) :=
  C8_copyDate_copyTime_invalid_noop none
    (some { year := 2024, month := 5, day := 10, hour := 1, minute := 2, second := 3 })
    (Or.inl rfl)

namespace DateUtils

/-- JS digit test (character code between 48 and 57). -/
def chIsDigit (c : Char) : Bool := 48 ≤ c.toNat && c.toNat ≤ 57

/-- All characters of a fragment are decimal digits. -/
def allDigits (cs : List Char) : Bool := cs.all chIsDigit

/-- Decimal value of a digit fragment. -/
def digitsToNat (cs : List Char) : Nat :=
  cs.foldl (fun acc c => acc * 10 + (c.toNat - 48)) 0

/-- Embeds `String.prototype.split(sep)` for a one-character separator. -/
def listSplitOnChar (sep : Char) : List Char → List (List Char)
  | [] => [[]]
  | x :: xs =>
    let rest := listSplitOnChar sep xs
    if x == sep then [] :: rest
    else
      match rest with
      | [] => [[x]]
      | r :: rs => (x :: r) :: rs

/-- Embeds `value.substring(start, stop)` (as a character list; starts are in range here). -/
def jsSubstring (value : String) (start stop : Nat) : List Char :=
  (value.toList.drop start).take (stop - start)

/-- Embeds `fragment.indexOf(ch)`: first index of the character, or -1. -/
def jsIndexOfChar (cs : List Char) (ch : Char) : Int :=
  match cs.findIdx? (fun c => c == ch) with
  | some i => (i : Int)
  | none => -1

/--
Modelled from the spec: `CoreUtils.stringIsEmpty` comes from the string
utility module, which is not under src/; per the spec, `parseDate`
"returns an explicit invalid value for empty input rather than attempting
to parse", so emptiness is modelled as an all-whitespace (in particular
zero-length) string.
-/
def stringIsEmpty (value : String) : Bool :=
  value.toList.all Char.isWhitespace

/--
The `shouldParseOrdinalMonthDayTwoDigitYear` heuristic of `_parseDate`
(src/value-utils.ts lines 548-551), verbatim: length between 6 and 8 and a
slash strictly inside the last four characters.
-/
def shouldParseOrdinalMonthDayTwoDigitYear (val : String) : Bool :=
  6 ≤ val.length && val.length ≤ 8 &&
    jsIndexOfChar (jsSubstring val (val.length - 4) val.length) '/' > 0

/--
The `shouldParseOrdinalMonthDayFullYear` heuristic of `_parseDate`
(src/value-utils.ts lines 553-556), verbatim: length between 8 and 10 and
no slash in the last four characters.
-/
def shouldParseOrdinalMonthDayFullYear (val : String) : Bool :=
  8 ≤ val.length && val.length ≤ 10 &&
    jsIndexOfChar (jsSubstring val (val.length - 4) val.length) '/' < 0

/--
Modelled from the spec: the `DateFormats` constants and the date
collaborator's format-driven parsing are not under src/.
`DateFormats.OrdinalMonthDayTwoDigitYear` is a slash-separated
month/day/two-digit-year hypothesis: all three fragments must be numeric,
the month 1-12, the day within the month, the year at most two digits
(values up to 68 land in the 2000s, larger ones in the 1900s, the
collaborator's two-digit-year convention).  Time of day is not part of the
format and is zero.
-/
def parseOrdinalMonthDayTwoDigitYear (value : String) : Option MomentFields :=
  match listSplitOnChar '/' value.toList with
  | [ms, ds, ys] =>
    if allDigits ms && allDigits ds && allDigits ys
        && 1 ≤ ms.length && ms.length ≤ 2 && 1 ≤ ds.length && ds.length ≤ 2
        && 1 ≤ ys.length && ys.length ≤ 2 then
      let m := digitsToNat ms
      let d := digitsToNat ds
      let yy := digitsToNat ys
      let y : Int := if yy ≤ 68 then 2000 + yy else 1900 + yy
      if 1 ≤ m && m ≤ 12 && 1 ≤ d && d ≤ daysInMonth y m then
        some { year := y, month := m, day := d, hour := 0, minute := 0, second := 0 }
      else none
    else none
  | _ => none

/--
Modelled from the spec: `DateFormats.OrdinalMonthDayFullYear`, the
slash-separated month/day/four-digit-year hypothesis.
-/
def parseOrdinalMonthDayFullYear (value : String) : Option MomentFields :=
  match listSplitOnChar '/' value.toList with
  | [ms, ds, ys] =>
    if allDigits ms && allDigits ds && allDigits ys
        && 1 ≤ ms.length && ms.length ≤ 2 && 1 ≤ ds.length && ds.length ≤ 2
        && ys.length == 4 then
      let m := digitsToNat ms
      let d := digitsToNat ds
      let y : Int := digitsToNat ys
      if 1 ≤ m && m ≤ 12 && 1 ≤ d && d ≤ daysInMonth y m then
        some { year := y, month := m, day := d, hour := 0, minute := 0, second := 0 }
      else none
    else none
  | _ => none

/--
Modelled from the spec: the ISO-style hypotheses
(`DateFormats.ISODateTimeOffset` / `DateFormats.DateTimeOffset`): a
dash-separated four-digit-year/month/day date, optionally followed by a
time part after the given separator; the time/offset tail is collaborator
detail and is modelled as zero time of day.
-/
def parseDashedDate (sep : Char) (value : String) : Option MomentFields :=
  let datePart := (listSplitOnChar sep value.toList).headD []
  match listSplitOnChar '-' datePart with
  | [ys, ms, ds] =>
    if allDigits ys && allDigits ms && allDigits ds
        && ys.length == 4 && 1 ≤ ms.length && ms.length ≤ 2
        && 1 ≤ ds.length && ds.length ≤ 2 then
      let y : Int := digitsToNat ys
      let m := digitsToNat ms
      let d := digitsToNat ds
      if 1 ≤ m && m ≤ 12 && 1 ≤ d && d ≤ daysInMonth y m then
        some { year := y, month := m, day := d, hour := 0, minute := 0, second := 0 }
      else none
    else none
  | _ => none

/--
Modelled from the spec: the final `Moment(value)` locale-default fallback -
it accepts an ISO-style date, a slash-separated month/day/four-digit-year
date, or a slash-separated month/four-digit-year pair (day 1); a month
outside 1-12 makes the result invalid.
-/
def parseLocaleFallback (value : String) : Option MomentFields :=
  match parseDashedDate 'T' value with
  | some m => some m
  | none =>
    match listSplitOnChar '/' value.toList with
    | [ms, ds, ys] =>
      if allDigits ms && allDigits ds && allDigits ys
          && 1 ≤ ms.length && 1 ≤ ds.length && ys.length == 4 then
        let m := digitsToNat ms
        let d := digitsToNat ds
        let y : Int := digitsToNat ys
        if 1 ≤ m && m ≤ 12 && 1 ≤ d && d ≤ daysInMonth y m then
          some { year := y, month := m, day := d, hour := 0, minute := 0, second := 0 }
        else none
      else none
    | [ms, ys] =>
      if allDigits ms && allDigits ys && 1 ≤ ms.length && ys.length == 4 then
        let m := digitsToNat ms
        let y : Int := digitsToNat ys
        if 1 ≤ m && m ≤ 12 then
          some { year := y, month := m, day := 1, hour := 0, minute := 0, second := 0 }
        else none
      else none
    | _ => none

/--
The ordered format-hypothesis loop of `_parseDate` (src/value-utils.ts
lines 558-573): skip a hypothesis whose `shouldParse` guard rejects the
string, return the first hypothesis that parses to a valid moment.
-/
def firstValidFormat :
    List ((String → Bool) × (String → Option MomentFields)) → String →
      Option MomentFields
  | [], _ => none
  | (shouldParse, parseHyp) :: rest, value =>
    if shouldParse value then
      match parseHyp value with
      | some m => some m
      | none => firstValidFormat rest value
    else firstValidFormat rest value

/--
The `commonDateFormats` table of `_parseDate` (src/value-utils.ts lines
558-563): the two slash heuristics guard the two ordinal hypotheses, the
two offset formats always run.
-/
def commonDateFormats :
    List ((String → Bool) × (String → Option MomentFields)) :=
  [(shouldParseOrdinalMonthDayTwoDigitYear, parseOrdinalMonthDayTwoDigitYear),
   (shouldParseOrdinalMonthDayFullYear, parseOrdinalMonthDayFullYear),
   (fun _ => true, parseDashedDate 'T'),
   (fun _ => true, parseDashedDate ' ')]

/--
Embeds `_parseDate(value)` (src/value-utils.ts lines 540-577): the invalid moment
for an empty string, then the ordered format hypotheses, then the
locale-default fallback `Moment(value)`.  The function is total: every
string yields a moment, valid (`some`) or the invalid marker (`none`).
-/
def parseDate (value : String) : Option MomentFields :=
  if stringIsEmpty value then none
  else
    match firstValidFormat commonDateFormats value with
    | some m => some m
    | none => parseLocaleFallback value

end DateUtils

/--
C5: `parseDate` never throws - it is a total function from strings to
moment values - and returns the explicit invalid marker (`none`) for the
empty string and for an unparseable string such as "13/2024" (its slash
sits at position 0 of the last four characters, so both slash heuristics
reject it, the dashed hypotheses fail, and the locale fallback rejects
month 13); `formatDate` applied to a null or invalid date value returns
null.
-/
theorem C5_parseDate_invalid_and_formatDate_null :
    DateUtils.parseDate "" = none ∧
    DateUtils.parseDate "13/2024" = none ∧
    (∀ (now : DateUtils.MomentFields) (b : Bool),
      DateUtils.formatDate now none b = DateUtils.FormatResult.null) ∧
    (∀ (now : DateUtils.MomentFields) (b : Bool),
      DateUtils.formatDate now (some none) b = DateUtils.FormatResult.null) := by
  refine ⟨by decide, by decide, ?_, ?_⟩
  · intro now b
    rfl
  · intro now b
    rfl

namespace DateUtils

/--
JS-level `_copyDate`, with nullable arguments: `from.isValid()` on a
null/undefined `from` throws a TypeError (`Except.error`); when `from` is
an invalid moment the `&&` short-circuits, so a null `to` is returned
untouched without being dereferenced; when `from` is valid, `to.isValid()`
on a null `to` throws; otherwise the non-null behaviour is `copyDate`,
whose returned moment is the call's result.
-/
def copyDateJS (fromM toM : Option (Option MomentFields)) :
    Except Unit (Option (Option MomentFields)) :=
  match fromM with
  | none => Except.error ()
  | some fmv =>
    match fmv with
    | none => Except.ok toM
    | some f =>
      match toM with
      | none => Except.error ()
      | some tmv => Except.ok (some (copyDate (some f) tmv).1)

/-- JS-level `_copyTime`, as `copyDateJS`. -/
def copyTimeJS (fromM toM : Option (Option MomentFields)) :
    Except Unit (Option (Option MomentFields)) :=
  match fromM with
  | none => Except.error ()
  | some fmv =>
    match fmv with
    | none => Except.ok toM
    | some f =>
      match toM with
      | none => Except.error ()
      | some tmv => Except.ok (some (copyTime (some f) tmv).1)

end DateUtils

namespace CollectionUtils

/--
JS-level `_getDefaultMap`: `Object.keys(null)` throws a TypeError, so a
null/undefined enum object throws; otherwise the behaviour is
`getDefaultMap`.
-/
def getDefaultMapJS (enumType : Option (List (String × EnumCell)))
    (defaultValue : Bool) : Except Unit (List (Option EnumCell × Bool)) :=
  match enumType with
  | none => Except.error ()
  | some o => Except.ok (getDefaultMap o defaultValue)

end CollectionUtils

/--
C6 counterexample: `copyDate` - an exported DateParse operation named by
the claim itself - does not return a defined fallback on a null `from`
argument: `from.isValid()` dereferences null and the call throws a
TypeError (modelled as `Except.error`), refuting "never throws an
exception" on null/undefined arguments.
-/
theorem C6_counterexample_copyDate_null_throws :
    DateUtils.copyDateJS none
        (some (some { year := 2024, month := 5, day := 10, hour := 0, minute := 0, second := 0 }))
      = Except.error () := rfl

/--
C6 (amended): null/undefined collection arguments to `differenceOf` and
`intersectionOf` degrade to empty-sequence semantics, `isEmpty`/`hasValues`
treat null arguments as empty, `parseDate` of the empty string returns the
invalid marker and `formatDate` of a null timestamp returns null - all
without throwing; but `copyDate` and `copyTime` throw a TypeError whenever
`from` is null/undefined, and also when `from` is a valid moment and `to`
is null/undefined, and `getDefaultMap` throws on a null/undefined enum
object, so not every exported operation has a defined fallback on every
input.
-/
theorem C6_null_fallbacks_except_copy_and_enum :
    (∀ (B : Option (List Int)) (cmp : Option (Int → Int → Bool)),
      CollectionUtils.differenceOfJS none B cmp = [] ∧
      CollectionUtils.intersectionOfJS none B cmp = []) ∧
    (∀ (A : List Int) (cmp : Option (Int → Int → Bool)),
      CollectionUtils.differenceOfJS (some A) none cmp = A ∧
      CollectionUtils.intersectionOfJS (some A) none cmp = []) ∧
    CollectionUtils.isEmpty [CollectionUtils.JSColl.null] = true ∧
    CollectionUtils.hasValues [CollectionUtils.JSColl.null] = false ∧
    DateUtils.parseDate "" = none ∧
    (∀ (now : DateUtils.MomentFields) (b : Bool),
      DateUtils.formatDate now none b = DateUtils.FormatResult.null) ∧
    (∀ (toM : Option (Option DateUtils.MomentFields)),
      DateUtils.copyDateJS none toM = Except.error () ∧
      DateUtils.copyTimeJS none toM = Except.error ()) ∧
    (∀ (f : DateUtils.MomentFields),
      DateUtils.copyDateJS (some (some f)) none = Except.error () ∧
      DateUtils.copyTimeJS (some (some f)) none = Except.error ()) ∧
    (∀ (dv : Bool), CollectionUtils.getDefaultMapJS none dv = Except.error ()) := by
  refine ⟨?_, ?_, by decide, by decide, by decide, ?_, ?_, ?_, ?_⟩
  · intro B cmp
    constructor
    · rfl
    · rfl
  · intro A cmp
    constructor
    · show CollectionUtils.differenceOf A [] _ = A
      rw [CollectionUtils.differenceOf]
      have h : ∀ a ∈ A,
          (!(List.any [] (fun b => (cmp.getD (fun x y => x == y)) a b))) = true := by
        intro a _
        rfl
      calc A.filter _ = A.filter (fun _ => true) := List.filter_congr h
        _ = A := List.filter_true A
    · show CollectionUtils.intersectionOf A [] _ = []
      rw [CollectionUtils.intersectionOf]
      have h : ∀ a ∈ A,
          (List.any [] (fun b => (cmp.getD (fun x y => x == y)) a b)) = false := by
        intro a _
        rfl
      calc A.filter _ = A.filter (fun _ => false) := List.filter_congr h
        _ = [] := List.filter_false A
  · intro now b
    rfl
  · intro toM
    exact ⟨rfl, rfl⟩
  · intro f
    exact ⟨rfl, rfl⟩
  · intro dv
    rfl
